import Mathlib

/-!
Verification development for the recipe-catalog tool (`FinalRecipe.py`).

The program is embedded shallowly:
* strings are Lean `String`s; Python `str.strip`/`str.split` are modelled
  character-exactly over `List Char` (ASCII whitespace);
* the SQLite store is a record of three tables (lists of rows) together with
  the three autoincrement counters (SQLite row ids start at 1);
* the interactive confirmation of `save_to_database` is the raw answer string;
* fallible store steps return `Except` (the only constraint the schema
  declares and SQLite enforces by default is `UNIQUE` on `category.name`;
  foreign keys are declared but not enforced by default).
-/

namespace FinalRecipe

/-- ASCII whitespace, as stripped by Python `str.strip()` (on ASCII input). -/
def isPySpace (c : Char) : Bool :=
  c = ' ' || c = '\t' || c = '\n' || c = '\r' || c = '\x0b' || c = '\x0c'

/-- Python `str.strip()` on a character list: drop whitespace at both ends. -/
def stripChars (l : List Char) : List Char :=
  ((l.dropWhile isPySpace).reverse.dropWhile isPySpace).reverse

/-- Python `str.strip()` on a string. -/
def pyStrip (s : String) : String :=
  (stripChars s.toList).asString

/-- Python `s.split(' ', 1)`: split at the first occurrence of the space
character, if any.  `none` means no space occurs (Python returns a one-element
list); `some (a, b)` means Python returns `[a, b]`. -/
def splitOnFirstSpace : List Char → Option (List Char × List Char)
  | [] => none
  | c :: cs =>
    if c = ' ' then some ([], cs)
    else
      match splitOnFirstSpace cs with
      | none => none
      | some (a, b) => some (c :: a, b)

/-- Embeds `Ingredient.parse_ingredient` (FinalRecipe.py lines 17-26): returns the
pair `(name, quantity)`. -/
def parse_ingredient (s : String) : String × String :=
  match splitOnFirstSpace s.toList with
  | some (a, b) => ((stripChars b).asString, (stripChars a).asString)
  | none => ((stripChars s.toList).asString, "")

/-- Embeds `Ingredient.__init__` (lines 11-15): the persisted text
`f"{quantity} {name}"`. -/
def quantity_ingredient (s : String) : String :=
  (parse_ingredient s).2 ++ " " ++ (parse_ingredient s).1

/-- The stored value exactly as the specification words it: split the raw
string on its FIRST WHITESPACE RUN into quantity token and remainder (empty
quantity when the string has no whitespace), trim each, join with one space. -/
def specStored (s : String) : String :=
  let l := s.toList
  if l.any isPySpace then
    (stripChars (l.takeWhile (fun c => !isPySpace c))).asString ++ " " ++
      (stripChars ((l.dropWhile (fun c => !isPySpace c)).dropWhile isPySpace)).asString
  else
    "" ++ " " ++ (stripChars l).asString

/-- The amended rule: split on the first SPACE CHARACTER (U+0020), not on a
whitespace run; trim each side; join with one space; empty quantity when the
string contains no space character. -/
def amendedStored (s : String) : String :=
  let l := s.toList
  if l.contains ' ' then
    (stripChars (l.takeWhile (fun c => c != ' '))).asString ++ " " ++
      (stripChars ((l.dropWhile (fun c => c != ' ')).drop 1)).asString
  else
    "" ++ " " ++ (stripChars l).asString

/-- Helper for `splitOnComma`: Python `str.split(',')`, accumulator-style. -/
def splitOnCommaAux : List Char → List Char → List String
  | [], acc => [acc.reverse.asString]
  | c :: cs, acc =>
    if c = ',' then acc.reverse.asString :: splitOnCommaAux cs []
    else splitOnCommaAux cs (c :: acc)

/-- Python `s.split(',')`: split at every comma, keeping empty pieces
(`"".split(',') == ['']`). -/
def splitOnComma (s : String) : List String :=
  splitOnCommaAux s.toList []

/-- Python `str.lower()` (on ASCII input). -/
def pyLower (s : String) : String :=
  (s.toList.map Char.toLower).asString

/-- The SQLite store created by `reset_or_create_db` (lines 35-64): the three
tables as row lists together with the next autoincrement id for each (SQLite
`AUTOINCREMENT` ids start at 1).  A category row is `(id, name)`; a recipe row
is `(id, name, category_id)` — `category_id` is nullable because
`update_recipe` can store `NULL`; an ingredient row is
`(id, quantity_ingredient, recipe_id)`. -/
structure DBState where
  categories : List (Nat × String)
  recipes : List (Nat × String × Option Nat)
  ingredients : List (Nat × String × Nat)
  nextCategoryId : Nat
  nextRecipeId : Nat
  nextIngredientId : Nat
deriving DecidableEq

/-- The store right after `reset_or_create_db`: three empty tables. -/
def freshDB : DBState :=
  { categories := [], recipes := [], ingredients := []
    nextCategoryId := 1, nextRecipeId := 1, nextIngredientId := 1 }

/-- The in-memory staging state of `RecipeDB` (lines 31-33): `recipe_list`
holds `(recipe_name, category_name, ingredients)` triples; `category_map` is
the insertion-ordered key list of the dict (all values are `None` until
`save_to_database` fills them in, so only the keys are staged). -/
structure Staging where
  recipe_list : List (String × String × List String)
  category_map : List String
deriving DecidableEq

/-- Embeds `get_category_id` (lines 157-164): `SELECT id FROM category WHERE name=?`
then `fetchone`; returns the id of the first matching row or `None`. -/
def get_category_id (category_name : String) (db : DBState) : Option Nat :=
  match db.categories.find? (fun r => r.2 == category_name) with
  | some r => some r.1
  | none => none

/-- Embeds `add_recipe` (lines 123-135): look the category up first; if it does not
exist, print and return without touching the store; otherwise insert the
recipe row and commit. -/
def add_recipe (name category : String) (db : DBState) : DBState :=
  match get_category_id category db with
  | none => db
  | some category_id =>
    { db with
      recipes := db.recipes ++ [(db.nextRecipeId, name, some category_id)]
      nextRecipeId := db.nextRecipeId + 1 }

/-- Embeds `delete_recipe` (lines 137-143): `DELETE FROM recipes WHERE id=?` and
commit; no existence check, no cascade to ingredients. -/
def delete_recipe (recipe_id : Nat) (db : DBState) : DBState :=
  { db with recipes := db.recipes.filter (fun r => r.1 != recipe_id) }

/-- Python truthiness of the `new_name` / `new_category` arguments of
`update_recipe`: `None` and the empty string are falsy. -/
def truthy : Option String → Bool
  | none => false
  | some s => s != ""

/-- Embeds `update_recipe` (lines 145-155): run `UPDATE recipes SET name=?` when
`new_name` is truthy, then `UPDATE recipes SET category_id=?` when
`new_category` is truthy — with `category_id` the result of
`get_category_id`, which may be `None` (stored as SQL `NULL`); commit. -/
def update_recipe (recipe_id : Nat) (new_name new_category : Option String)
    (db : DBState) : DBState :=
  let db1 :=
    if truthy new_name then
      { db with
        recipes := db.recipes.map (fun r =>
          if r.1 == recipe_id then (r.1, new_name.getD "", r.2.2) else r) }
    else db
  if truthy new_category then
    { db1 with
      recipes := db1.recipes.map (fun r =>
        if r.1 == recipe_id then (r.1, r.2.1, get_category_id (new_category.getD "") db1) else r) }
  else db1

/-- The staging of one CSV data row (lines 80-89): fields `row[0]`, `row[1]`,
and `row[2]` split on the comma. -/
def stageEntry (row : List String) : String × String × List String :=
  (row.getD 0 "", row.getD 1 "", splitOnComma (row.getD 2 ""))

/-- The row loop of `read_recipe_data` (lines 75-89): skip rows with fewer
than three fields; otherwise record the category name once (dict keys) and
append the staged triple. -/
def stageRows : List (List String) → Staging → Staging
  | [], st => st
  | row :: rest, st =>
    if row.length < 3 then stageRows rest st
    else
      stageRows rest
        { recipe_list := st.recipe_list ++ [stageEntry row]
          category_map :=
            if st.category_map.contains (row.getD 1 "") then st.category_map
            else st.category_map ++ [row.getD 1 ""] }

/-- Embeds `read_recipe_data` (lines 66-93): lines 67-68 discard the previous staging
unconditionally (hence the ignored `_old` argument); `next(csv_contents)`
discards the header row (on an empty file it raises `StopIteration`, which the
`except` swallows, leaving the cleared staging); the remaining rows are
staged by `stageRows`. -/
def read_recipe_data (_old : Staging) (rows : List (List String)) : Staging :=
  match rows with
  | [] => { recipe_list := [], category_map := [] }
  | _header :: dataRows => stageRows dataRows { recipe_list := [], category_map := [] }

/-- The category insert of `save_to_database` (lines 104-105): `INSERT INTO
category (name) VALUES (?)`; `cursor.lastrowid` is the new row's id. -/
def insertCategoryRow (name : String) (db : DBState) : DBState :=
  { db with
    categories := db.categories ++ [(db.nextCategoryId, name)]
    nextCategoryId := db.nextCategoryId + 1 }

/-- The category loop of `save_to_database` (lines 103-106): insert every
staged category name and record `cursor.lastrowid` in the map.  The `name`
column is declared `UNIQUE`, so inserting a name that is already present
raises (`IntegrityError`); the enclosing Python code has no `try`, so the
error propagates (`Except.error`). -/
def saveCategories : List String → DBState → Except String (List (String × Nat) × DBState)
  | [], db => .ok ([], db)
  | name :: rest, db =>
    if db.categories.any (fun r => r.2 == name) then
      .error ("UNIQUE constraint failed: category.name: " ++ name)
    else
      match saveCategories rest (insertCategoryRow name db) with
      | .error e => .error e
      | .ok (ids, db2) => .ok ((name, db.nextCategoryId) :: ids, db2)

/-- Lookup in the saved `category_map` (`self.category_map[category_name]`). -/
def lookupCat (name : String) : List (String × Nat) → Option Nat
  | [] => none
  | (n, i) :: rest => if n == name then some i else lookupCat name rest

/-- The ingredient loop of `save_to_database` (lines 114-116): one
`ingredients` row per raw ingredient string, carrying the parsed
`quantity_ingredient` text and the enclosing recipe's id. -/
def insertIngredients (recipe_id : Nat) : List String → DBState → DBState
  | [], db => db
  | s :: rest, db =>
    insertIngredients recipe_id rest
      { db with
        ingredients := db.ingredients ++ [(db.nextIngredientId, quantity_ingredient s, recipe_id)]
        nextIngredientId := db.nextIngredientId + 1 }

/-- The recipe insert of `save_to_database` (line 111): `INSERT INTO recipes
(name, category_id) VALUES (?, ?)`; `cursor.lastrowid` is the new row's id. -/
def insertRecipeRow (recipe_name : String) (category_id : Nat) (db : DBState) : DBState :=
  { db with
    recipes := db.recipes ++ [(db.nextRecipeId, recipe_name, some category_id)]
    nextRecipeId := db.nextRecipeId + 1 }

/-- The recipe loop of `save_to_database` (lines 109-117): resolve the
category id from the map (a missing key raises `KeyError`, uncaught), insert
the recipe row, then its ingredient rows. -/
def saveRecipes : List (String × String × List String) → List (String × Nat) → DBState →
    Except String DBState
  | [], _, db => .ok db
  | (recipe_name, category_name, ingredients) :: rest, catIds, db =>
    match lookupCat category_name catIds with
    | none => .error ("KeyError: " ++ category_name)
    | some category_id =>
      saveRecipes rest catIds
        (insertIngredients db.nextRecipeId ingredients
          (insertRecipeRow recipe_name category_id db))

/-- Embeds `save_to_database` (lines 95-121): proceed only when the lowercased,
stripped answer is `"y"`; otherwise print "Save to DB aborted" and leave the
store untouched.  There is no `try`/`except` anywhere in the method, so an
error in any save step propagates to the caller. -/
def save_to_database (answer : String) (st : Staging) (db : DBState) :
    Except String DBState :=
  if pyStrip (pyLower answer) == "y" then
    match saveCategories st.category_map db with
    | .error e => .error e
    | .ok (catIds, db1) => saveRecipes st.recipe_list catIds db1
  else .ok db

/-- Predicate: the `Except` result is an error, i.e. the exception escaped
the function. -/
def isError : Except String DBState → Bool
  | .error _ => true
  | .ok _ => false

/-- The texts of the ingredient rows that reference recipe id `k`, in table
order. -/
def ingredientTexts (k : Nat) (db : DBState) : List String :=
  (db.ingredients.filter (fun r => r.2.2 == k)).map (fun r => r.2.1)

/-- The data rows (header discarded) that survive the `len(row) < 3` check of
`read_recipe_data`. -/
def keptRows (rows : List (List String)) : List (List String) :=
  (rows.drop 1).filter (fun r => !decide (r.length < 3))

/-- A store used to instantiate the CRUD theorems on concrete data. -/
def dbDinner : DBState :=
  { categories := [(1, "Dinner")]
    recipes := [(1, "Hash", some 1)]
    ingredients := [(1, "2 eggs", 1)]
    nextCategoryId := 2, nextRecipeId := 2, nextIngredientId := 2 }

/-- A staging state used to instantiate the save theorems on concrete data. -/
def stDemo : Staging :=
  { recipe_list := [("Hash", "Dinner", ["2 eggs", "salt"])]
    category_map := ["Dinner"] }

/-- A two-row CSV (header plus one valid data row) used to instantiate the
theorems about importing. -/
def rows3Demo : List (List String) :=
  [["name", "category", "ingredients"], ["Hash", "Dinner", "2 eggs,salt"]]

/-- The store produced by a confirmed save of `rows3Demo` into the fresh
store. -/
def db3Demo : DBState :=
  { categories := [(1, "Dinner")]
    recipes := [(1, "Hash", some 1)]
    ingredients := [(1, "2 eggs", 1), (2, " salt", 1)]
    nextCategoryId := 2, nextRecipeId := 2, nextIngredientId := 3 }

/-- A four-row CSV (header, two valid data rows, one two-field row) used to
instantiate the theorems about importing. -/
def rows4Demo : List (List String) :=
  [["h1", "h2", "h3"], ["Hash", "Dinner", "2 eggs,salt"], ["bad"],
   ["Soup", "Dinner", "water"]]

/-- The store produced by a confirmed save of `rows4Demo` into the fresh
store. -/
def db4Demo : DBState :=
  { categories := [(1, "Dinner")]
    recipes := [(1, "Hash", some 1), (2, "Soup", some 1)]
    ingredients := [(1, "2 eggs", 1), (2, " salt", 1), (3, " water", 2)]
    nextCategoryId := 2, nextRecipeId := 3, nextIngredientId := 4 }

theorem splitOnFirstSpace_eq_none {l : List Char} (h : l.contains ' ' = false) :
    splitOnFirstSpace l = none := by
  induction l with
  | nil => rfl
  | cons c cs ih =>
    simp only [List.contains_cons, Bool.or_eq_false_iff, beq_eq_false_iff_ne] at h
    rw [splitOnFirstSpace]
    rw [if_neg (by exact fun hc => h.1 hc.symm)]
    rw [ih h.2]

theorem splitOnFirstSpace_eq_some {l : List Char} (h : l.contains ' ' = true) :
    splitOnFirstSpace l =
      some (l.takeWhile (fun c => c != ' '), (l.dropWhile (fun c => c != ' ')).drop 1) := by
  induction l with
  | nil => simp at h
  | cons c cs ih =>
    by_cases hc : c = ' '
    · subst hc
      simp [splitOnFirstSpace, List.takeWhile, List.dropWhile]
    · have hcs : cs.contains ' ' = true := by
        simp only [List.contains_cons] at h
        rcases Bool.or_eq_true_iff.mp h with h1 | h2
        · exact absurd (beq_iff_eq.mp h1).symm hc
        · exact h2
      rw [splitOnFirstSpace, if_neg hc, ih hcs]
      have hne : (c != ' ') = true := bne_iff_ne.mpr hc
      simp [List.takeWhile, List.dropWhile, hne]

/-- C1 counterexample: the claim's whitespace-run rule disagrees with the code
on a raw ingredient string whose first whitespace character is a tab.
`split(' ', 1)` does not split `"1\tcup"`, so the code stores `" 1\tcup"`,
while splitting on the first whitespace run would store `"1 cup"`. -/
theorem C1_counterexample :
    specStored "1\tcup" = "1 cup" ∧ quantity_ingredient "1\tcup" = " 1\tcup" ∧
      quantity_ingredient "1\tcup" ≠ specStored "1\tcup" :=
  ⟨by decide, by decide, by decide⟩

/-- C1 (amended): for every raw ingredient string the stored value equals the
quantity token and the remainder obtained by splitting the string at its first
space character (U+0020), each trimmed of leading/trailing whitespace,
concatenated with exactly one space; when the string contains no space
character the quantity token is empty, so parsing "salt" stores " salt". -/
theorem C1_stored_value (s : String) :
    quantity_ingredient s = amendedStored s ∧ quantity_ingredient "salt" = " salt" := by
  refine ⟨?_, by decide⟩
  simp only [quantity_ingredient, parse_ingredient, amendedStored]
  cases h : s.toList.contains ' ' with
  | false => rw [splitOnFirstSpace_eq_none h]; simp [h]
  | true => rw [splitOnFirstSpace_eq_some h]; simp [h]

theorem get_category_id_eq_none {category : String} {db : DBState}
    (h : ∀ r ∈ db.categories, r.2 ≠ category) :
    get_category_id category db = none := by
  have hf : db.categories.find? (fun r => r.2 == category) = none :=
    List.find?_eq_none.mpr (fun r hr => by simpa using h r hr)
  simp [get_category_id, hf]

/-- C5: adding a recipe under a category name that has no row in the category
table changes nothing: `add_recipe` logs and returns before any insert. -/
theorem C5_add_missing_category_noop (name category : String) (db : DBState)
    (h : ∀ r ∈ db.categories, r.2 ≠ category) :
    add_recipe name category db = db := by
  simp [add_recipe, get_category_id_eq_none h]

theorem C5_add_missing_category_noop_witness :
    add_recipe "Soup" "NonexistentCategory" dbDinner = dbDinner :=
  C5_add_missing_category_noop "Soup" "NonexistentCategory" dbDinner (by decide)

/-- C6: when `new_category` is non-empty but has no category row,
`update_recipe` still runs the `UPDATE` and stores `NULL` in `category_id`
for the matching recipe row. -/
theorem C6_update_missing_category_sets_null (recipe_id : Nat) (nc : String)
    (db : DBState) (hnc : nc ≠ "") (h : ∀ r ∈ db.categories, r.2 ≠ nc) :
    (update_recipe recipe_id none (some nc) db).recipes =
      db.recipes.map (fun r => if r.1 == recipe_id then (r.1, r.2.1, none) else r) ∧
    ∀ nm c, (recipe_id, nm, c) ∈ db.recipes →
      (recipe_id, nm, (none : Option Nat)) ∈ (update_recipe recipe_id none (some nc) db).recipes := by
  have hrec : (update_recipe recipe_id none (some nc) db).recipes =
      db.recipes.map (fun r => if r.1 == recipe_id then (r.1, r.2.1, none) else r) := by
    simp [update_recipe, truthy, hnc, get_category_id_eq_none h]
  refine ⟨hrec, ?_⟩
  intro nm c hm
  rw [hrec]
  have hx := List.mem_map_of_mem
    (fun r : Nat × String × Option Nat =>
      if r.1 == recipe_id then (r.1, r.2.1, (none : Option Nat)) else r) hm
  simpa using hx

theorem C6_update_missing_category_sets_null_witness :
    (update_recipe 1 none (some "Brunch") dbDinner).recipes = [(1, "Hash", none)] :=
  (C6_update_missing_category_sets_null 1 "Brunch" dbDinner (by decide) (by decide)).1

theorem length_filter_add_length_filter_neg {α : Type} (p : α → Bool) (l : List α) :
    (l.filter p).length + (l.filter (fun a => !p a)).length = l.length := by
  induction l with
  | nil => rfl
  | cons a l ih => cases h : p a <;> simp [List.filter_cons, h, ← ih] <;> omega

theorem length_filter_beq_le_one {l : List (Nat × String × Option Nat)} (k : Nat)
    (h : (l.map (fun r => r.1)).Nodup) :
    (l.filter (fun r => r.1 == k)).length ≤ 1 := by
  induction l with
  | nil => simp
  | cons a l ih =>
    simp only [List.map_cons, List.nodup_cons] at h
    cases hak : (a.1 == k) with
    | false => simpa [List.filter_cons, hak] using ih h.2
    | true =>
      have ha : a.1 = k := beq_iff_eq.mp hak
      have hnil : l.filter (fun r => r.1 == k) = [] := by
        apply List.filter_eq_nil_iff.mpr
        intro r hr hc
        have hrk : r.1 = k := by simpa using hc
        exact h.1 (by rw [ha, ← hrk]; exact List.mem_map_of_mem _ hr)
      simp [List.filter_cons, hak, hnil]

/-- C7: `delete_recipe` never touches the category or ingredient tables,
removes exactly the recipe rows carrying the given id (at most one row when
ids are unique, as the `PRIMARY KEY` guarantees), and is a complete no-op
when no recipe row has that id. -/
theorem C7_delete_recipe_frame (recipe_id : Nat) (db : DBState)
    (hids : (db.recipes.map (fun r => r.1)).Nodup) :
    (delete_recipe recipe_id db).categories = db.categories ∧
    (delete_recipe recipe_id db).ingredients = db.ingredients ∧
    (delete_recipe recipe_id db).recipes = db.recipes.filter (fun r => r.1 != recipe_id) ∧
    db.recipes.length ≤ (delete_recipe recipe_id db).recipes.length + 1 ∧
    ((∀ r ∈ db.recipes, r.1 ≠ recipe_id) → delete_recipe recipe_id db = db) := by
  refine ⟨rfl, rfl, rfl, ?_, ?_⟩
  · have hpart := length_filter_add_length_filter_neg
      (fun r : Nat × String × Option Nat => r.1 == recipe_id) db.recipes
    have hone := length_filter_beq_le_one recipe_id hids
    have hsame : (delete_recipe recipe_id db).recipes =
        db.recipes.filter (fun r => !(r.1 == recipe_id)) := by
      simp [delete_recipe, bne]
    rw [hsame]
    omega
  · intro hnone
    have hfix : db.recipes.filter (fun r => r.1 != recipe_id) = db.recipes :=
      List.filter_eq_self.mpr (fun r hr => bne_iff_ne.mpr (hnone r hr))
    simp [delete_recipe, hfix]

theorem C7_delete_recipe_frame_witness :
    (delete_recipe 99 dbDinner).categories = dbDinner.categories ∧
    (delete_recipe 99 dbDinner).ingredients = dbDinner.ingredients ∧
    (delete_recipe 99 dbDinner).recipes = [(1, "Hash", some 1)] ∧
    dbDinner.recipes.length ≤ (delete_recipe 99 dbDinner).recipes.length + 1 ∧
    delete_recipe 99 dbDinner = dbDinner := by
  have h := C7_delete_recipe_frame 99 dbDinner (by decide)
  exact ⟨h.1, h.2.1, h.2.2.1, h.2.2.2.1, h.2.2.2.2 (by decide)⟩

/-- C8: with both `new_name` and `new_category` omitted (`None`) or blank
(`""`), `update_recipe` executes no `UPDATE` and the whole store is
unchanged. -/
theorem C8_update_noop (recipe_id : Nat) (nn nc : Option String) (db : DBState)
    (h1 : nn = none ∨ nn = some "") (h2 : nc = none ∨ nc = some "") :
    update_recipe recipe_id nn nc db = db := by
  have t1 : truthy nn = false := by rcases h1 with h | h <;> simp [h, truthy]
  have t2 : truthy nc = false := by rcases h2 with h | h <;> simp [h, truthy]
  simp [update_recipe, t1, t2]

theorem C8_update_noop_witness :
    update_recipe 1 none (some "") dbDinner = dbDinner :=
  C8_update_noop 1 none (some "") dbDinner (Or.inl rfl) (Or.inr rfl)

/-- C9: a declined confirmation makes `save_to_database` return with the
store untouched (zero category, recipe, or ingredient rows inserted), and
`read_recipe_data` rebuilds the staging from scratch — its result does not
depend on the previously staged data, which lines 67-68 discard. -/
theorem C9_declined_save_writes_nothing (answer : String) (st : Staging) (db : DBState)
    (h : pyStrip (pyLower answer) ≠ "y") :
    save_to_database answer st db = Except.ok db ∧
    ∀ old1 old2 rows, read_recipe_data old1 rows = read_recipe_data old2 rows := by
  refine ⟨by simp [save_to_database, h], ?_⟩
  intro _ _ rows
  rfl

theorem C9_declined_save_writes_nothing_witness :
    save_to_database "N" stDemo dbDinner = Except.ok dbDinner ∧
    read_recipe_data stDemo [["h1", "h2", "h3"], ["Hash", "Dinner", "2 eggs,salt"]] =
      read_recipe_data { recipe_list := [], category_map := [] }
        [["h1", "h2", "h3"], ["Hash", "Dinner", "2 eggs,salt"]] :=
  ⟨(C9_declined_save_writes_nothing "N" stDemo dbDinner (by decide)).1,
   (C9_declined_save_writes_nothing "N" stDemo dbDinner (by decide)).2 stDemo
     { recipe_list := [], category_map := [] }
     [["h1", "h2", "h3"], ["Hash", "Dinner", "2 eggs,salt"]]⟩

/-- C10: `add_recipe` inserts nothing when the category lookup misses, and
when it hits, the single inserted recipe row carries `some cid` where `cid`
is the id of an existing row of the category table. -/
theorem C10_add_recipe_references_existing (name category : String) (db : DBState) :
    (get_category_id category db = none → add_recipe name category db = db) ∧
    ∀ cid, get_category_id category db = some cid →
      (add_recipe name category db).recipes =
        db.recipes ++ [(db.nextRecipeId, name, some cid)] ∧
      (cid, category) ∈ db.categories := by
  refine ⟨fun h => by simp [add_recipe, h], ?_⟩
  intro cid h
  refine ⟨by simp [add_recipe, h], ?_⟩
  unfold get_category_id at h
  cases hf : db.categories.find? (fun r => r.2 == category) with
  | none => rw [hf] at h; cases h
  | some r =>
    rw [hf] at h
    obtain ⟨a, b⟩ := r
    have hm := List.mem_of_find?_eq_some hf
    have hb : b = category := by simpa using List.find?_some hf
    have ha : a = cid := by simpa using h
    rw [← ha, ← hb]
    exact hm

theorem C10_add_recipe_references_existing_witness :
    (add_recipe "Soup" "NoSuch" dbDinner = dbDinner) ∧
    (add_recipe "Soup" "Dinner" dbDinner).recipes =
      dbDinner.recipes ++ [(dbDinner.nextRecipeId, "Soup", some 1)] ∧
    (1, "Dinner") ∈ dbDinner.categories :=
  ⟨(C10_add_recipe_references_existing "Soup" "NoSuch" dbDinner).1 (by decide),
   (C10_add_recipe_references_existing "Soup" "Dinner" dbDinner).2 1 (by decide)⟩

theorem save_to_database_yes (st : Staging) (db : DBState) :
    save_to_database "y" st db =
      match saveCategories st.category_map db with
      | .error e => .error e
      | .ok (catIds, db1) => saveRecipes st.recipe_list catIds db1 := by
  rfl

theorem insertRecipeRow_recipes (rn : String) (cid : Nat) (db : DBState) :
    (insertRecipeRow rn cid db).recipes = db.recipes ++ [(db.nextRecipeId, rn, some cid)] := rfl

theorem insertRecipeRow_nextRecipeId (rn : String) (cid : Nat) (db : DBState) :
    (insertRecipeRow rn cid db).nextRecipeId = db.nextRecipeId + 1 := rfl

theorem insertIngredients_frame (recipe_id : Nat) (l : List String) (db : DBState) :
    (insertIngredients recipe_id l db).categories = db.categories ∧
    (insertIngredients recipe_id l db).recipes = db.recipes ∧
    (insertIngredients recipe_id l db).nextRecipeId = db.nextRecipeId := by
  induction l generalizing db with
  | nil => exact ⟨rfl, rfl, rfl⟩
  | cons s rest ih => simpa [insertIngredients] using ih _

theorem insertIngredients_texts (recipe_id k : Nat) (l : List String) (db : DBState) :
    ingredientTexts k (insertIngredients recipe_id l db) =
      ingredientTexts k db ++ (if k = recipe_id then l.map quantity_ingredient else []) := by
  induction l generalizing db with
  | nil => simp [insertIngredients]
  | cons s rest ih =>
    rw [insertIngredients, ih]
    by_cases h : k = recipe_id
    · subst h
      simp [ingredientTexts, List.filter_append]
    · have h2 : recipe_id ≠ k := Ne.symm h
      simp [ingredientTexts, List.filter_append, h, h2]

theorem saveCategories_frame (l : List String) (db : DBState) (ids : List (String × Nat))
    (db' : DBState) (h : saveCategories l db = .ok (ids, db')) :
    db'.recipes = db.recipes ∧ db'.ingredients = db.ingredients ∧
    db'.nextRecipeId = db.nextRecipeId ∧ db'.nextIngredientId = db.nextIngredientId := by
  induction l generalizing db ids with
  | nil =>
    rw [saveCategories] at h
    cases h
    exact ⟨rfl, rfl, rfl, rfl⟩
  | cons n rest ih =>
    rw [saveCategories] at h
    cases hdup : db.categories.any (fun r => r.2 == n) with
    | true => rw [hdup] at h; simp at h
    | false =>
      rw [hdup] at h
      simp only [Bool.false_eq_true, if_false] at h
      cases hrec : saveCategories rest (insertCategoryRow n db) with
      | error e => rw [hrec] at h; simp at h
      | ok p =>
        obtain ⟨ids2, db2⟩ := p
        rw [hrec] at h
        simp only [Except.ok.injEq, Prod.mk.injEq] at h
        obtain ⟨-, hdb⟩ := h
        subst hdb
        have hx := ih _ ids2 hrec
        exact hx

theorem saveCategories_dup_error {l : List String} {db : DBState} {n : String}
    (hn : n ∈ l) (hdb : n ∈ db.categories.map (fun r => r.2)) :
    ∃ e, saveCategories l db = .error e := by
  induction l generalizing db with
  | nil => cases hn
  | cons m rest ih =>
    rw [saveCategories]
    cases hdup : db.categories.any (fun r => r.2 == m) with
    | true => exact ⟨_, rfl⟩
    | false =>
      have hmem : n ∈ rest := by
        cases List.mem_cons.mp hn with
        | inl heq =>
          exfalso
          obtain ⟨r, hr, hrn⟩ := List.mem_map.mp hdb
          have : db.categories.any (fun r => r.2 == m) = true :=
            List.any_eq_true.mpr ⟨r, hr, by simp [hrn, heq]⟩
          rw [hdup] at this
          cases this
        | inr h => exact h
      have hdb2 : n ∈ (insertCategoryRow m db).categories.map (fun r => r.2) := by
        simp only [insertCategoryRow, List.map_append]
        exact List.mem_append_left _ hdb
      obtain ⟨e, he⟩ := ih hmem hdb2
      rw [he]
      exact ⟨e, by simp⟩

theorem saveRecipes_recipes_mono {l : List (String × String × List String)}
    {catIds : List (String × Nat)} {db db' : DBState}
    (h : saveRecipes l catIds db = .ok db')
    {row : Nat × String × Option Nat} (hm : row ∈ db.recipes) : row ∈ db'.recipes := by
  induction l generalizing db with
  | nil => rw [saveRecipes] at h; cases h; exact hm
  | cons e rest ih =>
    obtain ⟨rn, cn, ings⟩ := e
    rw [saveRecipes] at h
    cases hlk : lookupCat cn catIds with
    | none => rw [hlk] at h; simp at h
    | some cid =>
      rw [hlk] at h
      refine ih h ?_
      rw [(insertIngredients_frame _ _ _).2.1]
      exact List.mem_append_left _ hm

theorem saveRecipes_texts_lt {l : List (String × String × List String)}
    {catIds : List (String × Nat)} {db db' : DBState}
    (h : saveRecipes l catIds db = .ok db') {k : Nat} (hk : k < db.nextRecipeId) :
    ingredientTexts k db' = ingredientTexts k db := by
  induction l generalizing db with
  | nil => rw [saveRecipes] at h; cases h; rfl
  | cons e rest ih =>
    obtain ⟨rn, cn, ings⟩ := e
    rw [saveRecipes] at h
    cases hlk : lookupCat cn catIds with
    | none => rw [hlk] at h; simp at h
    | some cid =>
      rw [hlk] at h
      have hnext : (insertIngredients db.nextRecipeId ings
          (insertRecipeRow rn cid db)).nextRecipeId = db.nextRecipeId + 1 :=
        (insertIngredients_frame _ _ _).2.2
      have hih := ih h (by rw [hnext]; omega)
      rw [hih, insertIngredients_texts]
      have : k ≠ db.nextRecipeId := by omega
      simp [ingredientTexts, insertRecipeRow, this]

theorem saveRecipes_main {l : List (String × String × List String)}
    {catIds : List (String × Nat)} {db db' : DBState}
    (h : saveRecipes l catIds db = .ok db') (i : Nat) (hi : i < l.length) :
    (∃ cid, (db.nextRecipeId + i, (l.get ⟨i, hi⟩).1, some cid) ∈ db'.recipes) ∧
    ingredientTexts (db.nextRecipeId + i) db' =
      ingredientTexts (db.nextRecipeId + i) db ++
        ((l.get ⟨i, hi⟩).2.2).map quantity_ingredient := by
  induction l generalizing db i with
  | nil => cases hi
  | cons e rest ih =>
    obtain ⟨rn, cn, ings⟩ := e
    rw [saveRecipes] at h
    cases hlk : lookupCat cn catIds with
    | none => rw [hlk] at h; simp at h
    | some cid =>
      rw [hlk] at h
      have hfr := insertIngredients_frame db.nextRecipeId ings (insertRecipeRow rn cid db)
      have hnext : (insertIngredients db.nextRecipeId ings
          (insertRecipeRow rn cid db)).nextRecipeId = db.nextRecipeId + 1 := hfr.2.2
      cases i with
      | zero =>
        constructor
        · refine ⟨cid, saveRecipes_recipes_mono h ?_⟩
          rw [hfr.2.1, insertRecipeRow_recipes]
          simp
        · have htx := saveRecipes_texts_lt h (k := db.nextRecipeId + 0)
            (by rw [hnext]; omega)
          rw [htx, insertIngredients_texts]
          simp [ingredientTexts, insertRecipeRow]
      | succ j =>
        have hj : j < rest.length := Nat.lt_of_succ_lt_succ hi
        have hih := ih h j hj
        rw [hnext] at hih
        have harith : db.nextRecipeId + 1 + j = db.nextRecipeId + (j + 1) := by omega
        rw [harith] at hih
        refine ⟨?_, ?_⟩
        · simpa using hih.1
        · have h2 := hih.2
          rw [insertIngredients_texts] at h2
          have hne : db.nextRecipeId + (j + 1) ≠ db.nextRecipeId := by omega
          simp only [ingredientTexts, insertRecipeRow, hne, if_neg, List.append_nil] at h2
          simpa [ingredientTexts] using h2

theorem saveRecipes_length {l : List (String × String × List String)}
    {catIds : List (String × Nat)} {db db' : DBState}
    (h : saveRecipes l catIds db = .ok db') :
    db'.recipes.length = db.recipes.length + l.length := by
  induction l generalizing db with
  | nil => rw [saveRecipes] at h; cases h; rfl
  | cons e rest ih =>
    obtain ⟨rn, cn, ings⟩ := e
    rw [saveRecipes] at h
    cases hlk : lookupCat cn catIds with
    | none => rw [hlk] at h; simp at h
    | some cid =>
      rw [hlk] at h
      have hlen := ih h
      have hrec2 : (insertIngredients db.nextRecipeId ings
          (insertRecipeRow rn cid db)).recipes =
          db.recipes ++ [(db.nextRecipeId, rn, some cid)] :=
        (insertIngredients_frame _ _ _).2.1
      rw [hrec2] at hlen
      simp only [List.length_append, List.length_cons, List.length_nil] at hlen ⊢
      omega

theorem stageRows_recipe_list (rows : List (List String)) (st : Staging) :
    (stageRows rows st).recipe_list =
      st.recipe_list ++ (rows.filter (fun r => !decide (r.length < 3))).map stageEntry := by
  induction rows generalizing st with
  | nil => simp [stageRows]
  | cons row rest ih =>
    rw [stageRows]
    by_cases h : row.length < 3
    · rw [if_pos h, ih]
      simp [List.filter_cons, h]
    · rw [if_neg h, ih]
      simp [List.filter_cons, h]

theorem read_recipe_list (old : Staging) (rows : List (List String)) :
    (read_recipe_data old rows).recipe_list = (keptRows rows).map stageEntry := by
  cases rows with
  | nil => simp [read_recipe_data, keptRows]
  | cons hdr rest =>
    simp [read_recipe_data, keptRows, stageRows_recipe_list]

theorem save_yes_fresh_ok (st : Staging) (db' : DBState)
    (hok : save_to_database "y" st freshDB = Except.ok db') :
    db'.recipes.length = st.recipe_list.length ∧
    ∀ i, ∀ hi : i < st.recipe_list.length,
      (∃ cid, (1 + i, (st.recipe_list.get ⟨i, hi⟩).1, some cid) ∈ db'.recipes) ∧
      ingredientTexts (1 + i) db' =
        ((st.recipe_list.get ⟨i, hi⟩).2.2).map quantity_ingredient := by
  rw [save_to_database_yes] at hok
  cases hsc : saveCategories st.category_map freshDB with
  | error e => rw [hsc] at hok; cases hok
  | ok p =>
    obtain ⟨catIds, db1⟩ := p
    rw [hsc] at hok
    have hfr := saveCategories_frame _ _ _ _ hsc
    have hrec0 : db1.recipes = ([] : List (Nat × String × Option Nat)) := hfr.1
    have hing0 : db1.ingredients = ([] : List (Nat × String × Nat)) := hfr.2.1
    have hnid : db1.nextRecipeId = 1 := hfr.2.2.1
    constructor
    · have hlen := saveRecipes_length hok
      rw [hrec0] at hlen
      simpa using hlen
    · intro i hi
      have hmain := saveRecipes_main hok i hi
      rw [hnid] at hmain
      refine ⟨hmain.1, ?_⟩
      rw [hmain.2]
      simp [ingredientTexts, hing0]

/-- C2 (amended): `save_to_database` contains no exception handler, so a save
step that raises — here a category insert violating the `UNIQUE` constraint
on `category.name` — makes `save_to_database` itself end in that error: the
exception propagates to the caller instead of being caught and logged. -/
theorem C2_save_step_error_propagates (st : Staging) (db : DBState) (n : String)
    (hn : n ∈ st.category_map) (hdb : n ∈ db.categories.map (fun r => r.2)) :
    isError (save_to_database "y" st db) = true := by
  obtain ⟨e, he⟩ := saveCategories_dup_error hn hdb
  rw [save_to_database_yes, he]
  rfl

theorem C2_save_step_error_propagates_witness :
    isError (save_to_database "y" stDemo dbDinner) = true :=
  C2_save_step_error_propagates stDemo dbDinner "Dinner" (by decide) (by decide)

/-- C2 counterexample: on a store already holding a category named "Dinner",
a confirmed save of staged data naming the same category ends in the
`UNIQUE`-constraint error instead of catching it: an exception raised during
a save step does propagate to the caller. -/
theorem C2_counterexample :
    save_to_database "y" stDemo dbDinner =
      Except.error "UNIQUE constraint failed: category.name: Dinner" := rfl

/-- C3: for a confirmed save of a freshly-imported file into the fresh store,
the staged list is exactly the valid data rows as (name, category name,
comma-split ingredient list); the i-th staged row is inserted as the recipe
row with id `1 + i`, and the ingredient rows referencing that id are exactly
the comma-split entries of that row parsed by the ingredient rule, in
order. -/
theorem C3_ingredients_follow_recipe (old : Staging) (rows : List (List String))
    (db' : DBState) (i : Nat)
    (hi : i < (read_recipe_data old rows).recipe_list.length)
    (hok : save_to_database "y" (read_recipe_data old rows) freshDB = Except.ok db') :
    (read_recipe_data old rows).recipe_list = (keptRows rows).map stageEntry ∧
    (∃ cid, (1 + i, ((read_recipe_data old rows).recipe_list.get ⟨i, hi⟩).1, some cid) ∈
      db'.recipes) ∧
    ingredientTexts (1 + i) db' =
      (((read_recipe_data old rows).recipe_list.get ⟨i, hi⟩).2.2).map quantity_ingredient := by
  have hs := save_yes_fresh_ok _ _ hok
  exact ⟨read_recipe_list old rows, (hs.2 i hi).1, (hs.2 i hi).2⟩

/-- C4: a data row with fewer than three fields is staged nowhere, so a
confirmed successful save of an imported file puts exactly one recipe row per
valid data row into the fresh store; in particular, with exactly one invalid
data row the store ends one recipe short of the data-row count. -/
theorem C4_short_rows_skipped (old : Staging) (rows : List (List String)) (db' : DBState)
    (hok : save_to_database "y" (read_recipe_data old rows) freshDB = Except.ok db') :
    (read_recipe_data old rows).recipe_list = (keptRows rows).map stageEntry ∧
    db'.recipes.length = (keptRows rows).length ∧
    (((rows.drop 1).filter (fun r => decide (r.length < 3))).length = 1 →
      db'.recipes.length + 1 = (rows.drop 1).length) := by
  have hs := save_yes_fresh_ok _ _ hok
  have hread := read_recipe_list old rows
  have hlen : db'.recipes.length = (keptRows rows).length := by
    rw [hs.1, hread, List.length_map]
  refine ⟨hread, hlen, ?_⟩
  intro h1
  have hpart := length_filter_add_length_filter_neg
    (fun r : List String => decide (r.length < 3)) (rows.drop 1)
  rw [h1] at hpart
  rw [hlen]
  have hk : keptRows rows = (rows.drop 1).filter (fun r => !decide (r.length < 3)) := rfl
  rw [hk]
  omega

theorem C3_ingredients_follow_recipe_witness :
    (read_recipe_data stDemo rows3Demo).recipe_list = (keptRows rows3Demo).map stageEntry ∧
    ingredientTexts 1 db3Demo = ["2 eggs", " salt"] :=
  ⟨(C3_ingredients_follow_recipe stDemo rows3Demo db3Demo 0 (by decide) (by rfl)).1,
   (C3_ingredients_follow_recipe stDemo rows3Demo db3Demo 0 (by decide) (by rfl)).2.2⟩

theorem C4_short_rows_skipped_witness :
    (read_recipe_data stDemo rows4Demo).recipe_list = (keptRows rows4Demo).map stageEntry ∧
    db4Demo.recipes.length = (keptRows rows4Demo).length ∧
    db4Demo.recipes.length + 1 = (rows4Demo.drop 1).length := by
  have h := C4_short_rows_skipped stDemo rows4Demo db4Demo (by rfl)
  exact ⟨h.1, h.2.1, h.2.2 (by decide)⟩

end FinalRecipe
